import Mathlib

/-!
# Training orchestration of PGL `apps/graph4kg/train.py`

A shallow embedding of the function `main` of `apps/graph4kg/train.py` and
proofs about its training-orchestration behaviour.

Modelling conventions:
* The run is single-process (`dist.get_world_size() == 1`), so the
  `init_parallel_env` / `DataParallel` branches of `main` are no-ops and are
  not modelled.
* `read_trigraph`, model construction, the loss function, timing counters and
  the numeric content of a training step are external collaborators; the
  observable behaviour of `main` is modelled as the ordered list of calls it
  makes (`Ev`).  Purely numeric hyperparameters of `args` that never change
  which calls `main` makes (`mlp_lr`, `margin`, `batch_size`,
  `use_embedding_regularization`, seeds, paths of the dataset, ...) are
  omitted from `Args`.
* The filter dictionary built once from the triple source
  (`true_heads_for_tail_rel` / `true_tails_for_head_rel`) is represented by an
  abstract identity token `fd : Nat`; the claims only depend on whether, and
  which, dictionary object is handed to `create_dataloaders` and `evaluate`.
* `len(model.parameters())` is the parameter `numParams`.
* The batches yielded by `train_loader` are represented by their corruption
  mode strings; the same loader is re-iterated on every epoch, so every epoch
  sees the same list of batches.
* A raised `ValueError` propagates out of `main`, so the event trace simply
  ends at the corresponding error event: nothing after it is executed.
-/

namespace Graph4KG

/-- The fields of `args` that influence the control flow of `main`. -/
structure Args where
  filter_sample : Bool
  filter_eval : Bool
  sample_weight : Bool
  async_update : Bool
  mlp_optimizer : String
  mix_cpu_gpu : Bool
  valid : Bool
  test : Bool
  num_epoch : Nat
  log_interval : Nat
  eval_interval : Nat
  save_interval : Nat
  max_steps : Nat
  save_path : String
deriving DecidableEq

/-- Observable actions of `main`, in program order.

* `startAsync` / `finishAsync`: `model.start_async_update()` and
  `model.finish_async_update()`.
* `warnNoParam`: the `warnings.warn` call when the model has no dense
  parameter (the optimizer is then `None`).
* `configError msg`: the `raise ValueError` of the optimizer-selection block.
* `createLoaders d`: the `create_dataloaders` call; `d` is its `filter_dict`
  keyword argument (`some fd` for the dictionary token, `none` for `None`).
* `forwardPos m`: `model.prepare_inputs` plus the positive-score
  `model.forward` of a batch with mode string `m`.
* `modeError m`: the `raise ValueError('unsupported negative mode ...')`.
* `lossComputed m`: the negative-score computation and the `loss_func` call
  (everything from `get_neg_score` through `loss.backward()`).
* `optimStep`: `optimizer.step()` / `optimizer.clear_grad()`.
* `traceDispatch`: `model.step(...)` (with `create_trace` when
  `mix_cpu_gpu`), dispatching the gradient trace of the batch.
* `logReset n`: the `print_log` call at step counter `n` with the reset of
  the accumulators.
* `evalValid n d`: `evaluate(..., 'valid', d, ...)` at step counter `n`.
* `save p`: `model.save(p)`.
* `evalTest d p`: `evaluate(..., 'test', d, p, ...)`; `p` is its output-path
  argument (`none` for the in-loop call which passes no path). -/
inductive Ev where
  | startAsync : Ev
  | warnNoParam : Ev
  | configError : String → Ev
  | createLoaders : Option Nat → Ev
  | forwardPos : String → Ev
  | modeError : String → Ev
  | lossComputed : String → Ev
  | optimStep : Ev
  | traceDispatch : Ev
  | logReset : Nat → Ev
  | evalValid : Nat → Option Nat → Ev
  | save : String → Ev
  | evalTest : Option Nat → Option String → Ev
  | finishAsync : Ev
deriving DecidableEq

/-- Control outcome of one iteration of the inner batch loop of `main`:
fall through to the next batch, `break`, or abort `main` with an exception. -/
inductive Ctrl where
  | next : Ctrl
  | brk : Ctrl
  | abort : Ctrl
deriving DecidableEq

/-- `use_filter_set = args.filter_sample or args.filter_eval or
args.sample_weight`. -/
def useFilterSet (args : Args) : Bool :=
  args.filter_sample || args.filter_eval || args.sample_weight

/-- The local variable `filter_dict` of `main`: the dictionary of true-heads
and true-tails maps (token `fd`) when `use_filter_set` holds, else `None`. -/
def filterDict (args : Args) (fd : Nat) : Option Nat :=
  if useFilterSet args then some fd else none

/-- The `filter_dict` keyword argument of the `create_dataloaders` call:
`filter_dict if use_filter_set else None`. -/
def loaderFilterArg (args : Args) (fd : Nat) : Option Nat :=
  if useFilterSet args then filterDict args fd else none

/-- The filter argument of every `evaluate` call of `main`:
`filter_dict if args.filter_eval else None`. -/
def evalFilterArg (args : Args) (fd : Nat) : Option Nat :=
  if args.filter_eval then filterDict args fd else none

/-- `os.path.join` for the shapes occurring in `main`: a relative second
component joined to a base path without trailing separator. -/
def osPathJoin (a b : String) : String := a ++ "/" ++ b

/-- The corruption modes accepted by the training step. -/
def validMode (m : String) : Bool := m == "head" || m == "tail"

/-- Result of the optimizer-selection block of `main`. -/
inductive OptimSetup where
  | optim : String → OptimSetup
  | noOptim : OptimSetup
  | fail : String → OptimSetup
deriving DecidableEq

/-- The optimizer-selection block of `main`: with at least one dense
parameter, `Adam` and `Adagrad` are accepted and anything else raises
`ValueError('optimizer ... not supported!')`; with no dense parameter a
`RuntimeWarning` is emitted and the optimizer is `None`. -/
def setupOptimizer (args : Args) (numParams : Nat) : OptimSetup :=
  if numParams > 0 then
    if args.mlp_optimizer = "Adam" then OptimSetup.optim "Adam"
    else if args.mlp_optimizer = "Adagrad" then OptimSetup.optim "Adagrad"
    else OptimSetup.fail ("optimizer " ++ args.mlp_optimizer ++ " not supported!")
  else OptimSetup.noOptim

/-- Whether the optimizer-selection block raises. -/
def setupFails (args : Args) (numParams : Nat) : Bool :=
  match setupOptimizer args numParams with
  | OptimSetup.fail _ => true
  | _ => false

/-- One iteration of the inner batch loop of `main`, for a batch with mode
string `mode`, entered with step counter `step`.  Returns the events of the
iteration, the step counter after it, and the control outcome.  Mirrors the
body of `for indexes, prefetch_embeddings, mode in train_loader:` line by
line: forward on positives, mode dispatch (raising on an unsupported mode
before the loss is computed), loss and backward, optional dense-optimizer
step, trace dispatch, periodic log reset, periodic validation, step
increment, conditional checkpoint, conditional test evaluation and break. -/
def batchEvents (args : Args) (hasOptim : Bool) (fd : Nat) (mode : String)
    (step : Nat) : List Ev × Nat × Ctrl :=
  if validMode mode then
    let s' := step + 1
    let evs :=
      [Ev.forwardPos mode, Ev.lossComputed mode]
      ++ (if hasOptim then [Ev.optimStep] else [])
      ++ [Ev.traceDispatch]
      ++ (if s' % args.log_interval = 0 then [Ev.logReset step] else [])
      ++ (if args.valid ∧ s' % args.eval_interval = 0 then
            [Ev.evalValid step (evalFilterArg args fd)] else [])
      ++ (if s' % args.save_interval = 0 ∨ s' > args.max_steps then
            [Ev.save (osPathJoin args.save_path ("step_" ++ Nat.repr s'))] else [])
    if s' > args.max_steps ∧ args.test then
      (evs ++ [Ev.evalTest (evalFilterArg args fd) none], s', Ctrl.brk)
    else
      (evs, s', Ctrl.next)
  else
    ([Ev.forwardPos mode, Ev.modeError mode], step, Ctrl.abort)

/-- The inner batch loop over one epoch's stream of batches.  A `brk`
outcome stops the iteration of the current epoch; an `abort` outcome stops
it with a pending exception. -/
def runBatches (args : Args) (hasOptim : Bool) (fd : Nat) :
    List String → Nat → List Ev × Nat × Ctrl
  | [], step => ([], step, Ctrl.next)
  | mode :: rest, step =>
    let r := batchEvents args hasOptim fd mode step
    match r.2.2 with
    | Ctrl.next =>
      let r2 := runBatches args hasOptim fd rest r.2.1
      (r.1 ++ r2.1, r2.2.1, r2.2.2)
    | Ctrl.brk => (r.1, r.2.1, Ctrl.brk)
    | Ctrl.abort => (r.1, r.2.1, Ctrl.abort)

/-- The epoch loop `for epoch in range(args.num_epoch)` with `k` epochs left,
threading the step counter.  The boolean result records whether the run
aborted with an exception (a `break` merely moves on to the next epoch). -/
def runEpochs (args : Args) (hasOptim : Bool) (fd : Nat)
    (batches : List String) : Nat → Nat → List Ev × Nat × Bool
  | 0, step => ([], step, false)
  | k + 1, step =>
    let r := runBatches args hasOptim fd batches step
    match r.2.2 with
    | Ctrl.abort => (r.1, r.2.1, true)
    | _ =>
      let r2 := runEpochs args hasOptim fd batches k r.2.1
      (r.1 ++ r2.1, r2.2.1, r2.2.2)

/-- The events after the epoch loop: `finish_async_update` when async update
is enabled, then the final test evaluation with output path
`os.path.join(args.save_path, 'test.pkl')` when the test split is enabled. -/
def finalEvents (args : Args) (fd : Nat) : List Ev :=
  (if args.async_update then [Ev.finishAsync] else [])
    ++ (if args.test then
          [Ev.evalTest (evalFilterArg args fd)
            (some (osPathJoin args.save_path "test.pkl"))] else [])

/-- The epoch loop followed by the shutdown events; the shutdown events are
skipped when the loop aborted with an exception. -/
def loopAndFinish (args : Args) (hasOptim : Bool) (fd : Nat)
    (batches : List String) : List Ev :=
  (runEpochs args hasOptim fd batches args.num_epoch 1).1
    ++ (if (runEpochs args hasOptim fd batches args.num_epoch 1).2.2 then []
        else finalEvents args fd)

/-- The event trace of `main`, from the point where the filter dictionary has
been built.  `numParams` is `len(model.parameters())`, `fd` the identity
token of the filter dictionary, `batches` the stream of corruption modes
yielded by `train_loader` in one epoch.  The step counter starts at `1`. -/
def mainTrace (args : Args) (numParams : Nat) (fd : Nat)
    (batches : List String) : List Ev :=
  let pre := if args.async_update then [Ev.startAsync] else []
  match setupOptimizer args numParams with
  | OptimSetup.fail msg => pre ++ [Ev.configError msg]
  | OptimSetup.optim _ =>
    pre ++ [Ev.createLoaders (loaderFilterArg args fd)]
      ++ loopAndFinish args true fd batches
  | OptimSetup.noOptim =>
    pre ++ [Ev.warnNoParam, Ev.createLoaders (loaderFilterArg args fd)]
      ++ loopAndFinish args false fd batches

/-- Recognises the `warnings.warn` event. -/
def isWarn : Ev → Bool
  | Ev.warnNoParam => true
  | _ => false

/-- Recognises the dense-optimizer step event. -/
def isOptimStep : Ev → Bool
  | Ev.optimStep => true
  | _ => false

/-- Recognises the unsupported-mode `ValueError` event. -/
def isModeError : Ev → Bool
  | Ev.modeError _ => true
  | _ => false

/-- Recognises the unsupported-optimizer `ValueError` event. -/
def isConfigError : Ev → Bool
  | Ev.configError _ => true
  | _ => false

/-- Recognises the `finish_async_update` event. -/
def isFinishAsync : Ev → Bool
  | Ev.finishAsync => true
  | _ => false

/-- Recognises either `ValueError` event of `main`. -/
def isErrorEv : Ev → Bool
  | Ev.modeError _ => true
  | Ev.configError _ => true
  | _ => false

/-- Recognises the loss-computation event of a training step. -/
def isLoss : Ev → Bool
  | Ev.lossComputed _ => true
  | _ => false

/-- Recognises any test-set `evaluate` call. -/
def isTestEval : Ev → Bool
  | Ev.evalTest _ _ => true
  | _ => false

/-- Recognises the in-loop test-set `evaluate` call (no output path). -/
def isInLoopTestEval : Ev → Bool
  | Ev.evalTest _ none => true
  | _ => false

/-- Recognises the final test-set `evaluate` call (with an output path). -/
def isFinalTestEval : Ev → Bool
  | Ev.evalTest _ (some _) => true
  | _ => false

/-- A trace with no unsupported-mode error event. -/
def noModeError (l : List Ev) : Bool := l.all fun e => !isModeError e

/-- Nothing is observed after an unsupported-mode error: either the trace
contains no such event, or the first one is its last element. -/
def stopsAtModeError : List Ev → Bool
  | [] => true
  | e :: rest => if isModeError e then rest.isEmpty else stopsAtModeError rest

/-- A reference configuration: all periodic intervals large, all optional
features off, a supported optimizer. -/
def baseArgs : Args where
  filter_sample := false
  filter_eval := false
  sample_weight := false
  async_update := false
  mlp_optimizer := "Adam"
  mix_cpu_gpu := false
  valid := false
  test := false
  num_epoch := 1
  log_interval := 1000
  eval_interval := 1000
  save_interval := 1000
  max_steps := 100
  save_path := "out"

/-- Configuration for C1: `max_steps = 1`, test split disabled. -/
def c1args : Args := { baseArgs with max_steps := 1, save_interval := 10 }

/-- Configuration for C5's counterexample: async update enabled together
with an unsupported optimizer name. -/
def c5args : Args := { baseArgs with async_update := true, mlp_optimizer := "SGD" }

/-- Configuration for C6's counterexample: `save_interval = 10`,
`max_steps = 2`. -/
def c6args : Args := { baseArgs with save_interval := 10, max_steps := 2 }

/-- Configuration for C7's counterexample: validation on, the filter
dictionary built because of `filter_sample`, but `filter_eval` off. -/
def c7args : Args :=
  { baseArgs with valid := true, filter_sample := true, eval_interval := 2 }

/-- Configuration for C9's counterexample: test split enabled, two epochs,
`max_steps = 1`. -/
def c9args : Args :=
  { baseArgs with test := true, num_epoch := 2, max_steps := 1, save_interval := 10 }

/-- Configuration for C3's witness: an unsupported optimizer name. -/
def c3args : Args := { baseArgs with mlp_optimizer := "SGD" }

/-- Configuration for C5's witness: async update and the test split enabled,
supported optimizer. -/
def c5wargs : Args := { baseArgs with async_update := true, test := true }

/-- Configuration for C7's witness: validation and evaluation filtering
enabled. -/
def c7wargs : Args :=
  { baseArgs with valid := true, filter_eval := true, eval_interval := 2 }

/-- Configuration for C10's witness: only `sample_weight` set. -/
def c10args : Args := { baseArgs with sample_weight := true }

theorem forall_mem_ite {α : Type} {c : Prop} [Decidable c] {l1 l2 : List α}
    {P : α → Prop} (h1 : ∀ e ∈ l1, P e) (h2 : ∀ e ∈ l2, P e) :
    ∀ e ∈ (if c then l1 else l2), P e := by
  split
  · exact h1
  · exact h2

theorem batchEvents_all (args : Args) (hasOptim : Bool) (fd : Nat) (m : String)
    (s : Nat) (p : Ev → Bool)
    (hfp : ∀ m', p (Ev.forwardPos m') = true)
    (hlc : ∀ m', p (Ev.lossComputed m') = true)
    (hos : hasOptim = true → p Ev.optimStep = true)
    (htd : p Ev.traceDispatch = true)
    (hlr : ∀ n, p (Ev.logReset n) = true)
    (hev : ∀ n o, p (Ev.evalValid n o) = true)
    (hsv : ∀ q, p (Ev.save q) = true)
    (het : ∀ o op, p (Ev.evalTest o op) = true)
    (hme : validMode m = false → p (Ev.modeError m) = true) :
    (batchEvents args hasOptim fd m s).1.all p = true := by
  unfold batchEvents
  by_cases hm : validMode m = true
  · simp only [hm, if_true]
    split_ifs <;> simp_all [List.all_append]
  · rw [Bool.not_eq_true] at hm
    simp [hm, hfp, hme hm]

theorem batchEvents_bad (args : Args) (hasOptim : Bool) (fd : Nat) (m : String)
    (s : Nat) (hm : validMode m = false) :
    batchEvents args hasOptim fd m s
      = ([Ev.forwardPos m, Ev.modeError m], s, Ctrl.abort) := by
  unfold batchEvents
  simp [hm]

theorem batchEvents_good (args : Args) (hasOptim : Bool) (fd : Nat)
    (m : String) (s : Nat) (hm : validMode m = true) :
    noModeError (batchEvents args hasOptim fd m s).1 = true ∧
      (batchEvents args hasOptim fd m s).2.2 ≠ Ctrl.abort := by
  constructor
  · exact batchEvents_all args hasOptim fd m s _
      (fun _ => rfl) (fun _ => rfl) (fun _ => rfl) rfl (fun _ => rfl)
      (fun _ _ => rfl) (fun _ => rfl) (fun _ _ => rfl)
      (fun hf => absurd hm (by simp [hf]))
  · unfold batchEvents
    simp only [hm, if_true]
    split_ifs <;> simp

theorem countP_zero_of_all {l : List Ev} {p : Ev → Bool}
    (h : (l.all fun e => !p e) = true) : l.countP p = 0 := by
  rw [List.countP_eq_zero]
  intro a ha
  have h2 := List.all_eq_true.mp h a ha
  simp only [Bool.not_eq_true'] at h2
  simp [h2]

theorem stopsAtModeError_of_noModeError :
    ∀ {l : List Ev}, noModeError l = true → stopsAtModeError l = true := by
  intro l
  induction l with
  | nil => intro _; rfl
  | cons e rest ih =>
    intro h
    rw [noModeError, List.all_cons] at h
    simp only [Bool.and_eq_true, Bool.not_eq_true'] at h
    rw [stopsAtModeError]
    simp only [h.1, if_false]
    exact ih h.2

theorem stopsAtModeError_append :
    ∀ {l1 l2 : List Ev}, noModeError l1 = true →
      stopsAtModeError (l1 ++ l2) = stopsAtModeError l2 := by
  intro l1
  induction l1 with
  | nil => intro l2 _; rfl
  | cons e rest ih =>
    intro l2 h
    rw [noModeError, List.all_cons] at h
    simp only [Bool.and_eq_true, Bool.not_eq_true'] at h
    rw [List.cons_append, stopsAtModeError]
    simp only [h.1, if_false]
    exact ih h.2

theorem runBatches_inv (args : Args) (hasOptim : Bool) (fd : Nat) :
    ∀ (l : List String) (s : Nat),
      ((runBatches args hasOptim fd l s).2.2 = Ctrl.abort →
        stopsAtModeError (runBatches args hasOptim fd l s).1 = true) ∧
      ((runBatches args hasOptim fd l s).2.2 ≠ Ctrl.abort →
        noModeError (runBatches args hasOptim fd l s).1 = true) := by
  intro l
  induction l with
  | nil =>
    intro s
    refine ⟨fun h => absurd h (by simp [runBatches]), fun _ => rfl⟩
  | cons m rest ih =>
    intro s
    by_cases hm : validMode m = true
    · obtain ⟨hno, hctrl⟩ := batchEvents_good args hasOptim fd m s hm
      rcases hc : (batchEvents args hasOptim fd m s).2.2 with _ | _ | _
      · constructor
        · intro h
          simp only [runBatches, hc] at h ⊢
          rw [stopsAtModeError_append hno]
          exact (ih _).1 h
        · intro h
          simp only [runBatches, hc] at h ⊢
          rw [noModeError, List.all_append]
          rw [noModeError] at hno
          rw [hno, Bool.true_and]
          exact (ih _).2 h
      · refine ⟨fun h => ?_, fun _ => ?_⟩
        · simp [runBatches, hc] at h
        · simp only [runBatches, hc]
          exact hno
      · exact absurd hc hctrl
    · rw [Bool.not_eq_true] at hm
      have hb := batchEvents_bad args hasOptim fd m s hm
      refine ⟨fun _ => ?_, fun h => ?_⟩
      · simp only [runBatches, hb]
        rfl
      · simp only [runBatches, hb] at h
        exact absurd rfl h

theorem runEpochs_inv (args : Args) (hasOptim : Bool) (fd : Nat)
    (batches : List String) :
    ∀ (k s : Nat),
      ((runEpochs args hasOptim fd batches k s).2.2 = true →
        stopsAtModeError (runEpochs args hasOptim fd batches k s).1 = true) ∧
      ((runEpochs args hasOptim fd batches k s).2.2 = false →
        noModeError (runEpochs args hasOptim fd batches k s).1 = true) := by
  intro k
  induction k with
  | zero => intro s; exact ⟨fun h => by simp [runEpochs] at h, fun _ => rfl⟩
  | succ k ih =>
    intro s
    rcases hc : (runBatches args hasOptim fd batches s).2.2 with _ | _ | _
    · have hno := (runBatches_inv args hasOptim fd batches s).2 (by rw [hc]; simp)
      constructor
      · intro h
        simp only [runEpochs, hc] at h ⊢
        rw [stopsAtModeError_append hno]
        exact (ih _).1 h
      · intro h
        simp only [runEpochs, hc] at h ⊢
        rw [noModeError, List.all_append]
        rw [noModeError] at hno
        rw [hno, Bool.true_and]
        exact (ih _).2 h
    · have hno := (runBatches_inv args hasOptim fd batches s).2 (by rw [hc]; simp)
      constructor
      · intro h
        simp only [runEpochs, hc] at h ⊢
        rw [stopsAtModeError_append hno]
        exact (ih _).1 h
      · intro h
        simp only [runEpochs, hc] at h ⊢
        rw [noModeError, List.all_append]
        rw [noModeError] at hno
        rw [hno, Bool.true_and]
        exact (ih _).2 h
    · have hst := (runBatches_inv args hasOptim fd batches s).1 hc
      refine ⟨fun _ => ?_, fun h => ?_⟩
      · simp only [runEpochs, hc]
        exact hst
      · simp [runEpochs, hc] at h

theorem runBatches_no_abort (args : Args) (hasOptim : Bool) (fd : Nat) :
    ∀ (l : List String) (s : Nat), (∀ m ∈ l, validMode m = true) →
      (runBatches args hasOptim fd l s).2.2 ≠ Ctrl.abort := by
  intro l
  induction l with
  | nil => intro s _; simp [runBatches]
  | cons m rest ih =>
    intro s hall
    have hm := hall m (by simp)
    obtain ⟨_, hctrl⟩ := batchEvents_good args hasOptim fd m s hm
    rcases hc : (batchEvents args hasOptim fd m s).2.2 with _ | _ | _
    · simp only [runBatches, hc]
      exact ih _ fun m' hm' => hall m' (by simp [hm'])
    · simp only [runBatches, hc]
      simp
    · exact absurd hc hctrl

theorem runEpochs_no_abort (args : Args) (hasOptim : Bool) (fd : Nat)
    (batches : List String) (hb : ∀ m ∈ batches, validMode m = true) :
    ∀ (k s : Nat), (runEpochs args hasOptim fd batches k s).2.2 = false := by
  intro k
  induction k with
  | zero => intro s; rfl
  | succ k ih =>
    intro s
    rcases hc : (runBatches args hasOptim fd batches s).2.2 with _ | _ | _
    · simp only [runEpochs, hc]
      exact ih _
    · simp only [runEpochs, hc]
      exact ih _
    · exact absurd hc (runBatches_no_abort args hasOptim fd batches s hb)

theorem runBatches_all (args : Args) (hasOptim : Bool) (fd : Nat)
    (p : Ev → Bool)
    (hfp : ∀ m', p (Ev.forwardPos m') = true)
    (hlc : ∀ m', p (Ev.lossComputed m') = true)
    (hos : hasOptim = true → p Ev.optimStep = true)
    (htd : p Ev.traceDispatch = true)
    (hlr : ∀ n, p (Ev.logReset n) = true)
    (hev : ∀ n o, p (Ev.evalValid n o) = true)
    (hsv : ∀ q, p (Ev.save q) = true)
    (het : ∀ o op, p (Ev.evalTest o op) = true)
    (hme : ∀ m', p (Ev.modeError m') = true) :
    ∀ (l : List String) (s : Nat),
      ((runBatches args hasOptim fd l s).1.all p) = true := by
  intro l
  induction l with
  | nil => intro s; rfl
  | cons m rest ih =>
    intro s
    have hbe := batchEvents_all args hasOptim fd m s p hfp hlc hos htd hlr
      hev hsv het (fun _ => hme m)
    rcases hc : (batchEvents args hasOptim fd m s).2.2 with _ | _ | _
    · simp only [runBatches, hc]
      rw [List.all_append, hbe, Bool.true_and]
      exact ih _
    · simp only [runBatches, hc]
      exact hbe
    · simp only [runBatches, hc]
      exact hbe

theorem runEpochs_all (args : Args) (hasOptim : Bool) (fd : Nat)
    (batches : List String) (p : Ev → Bool)
    (hfp : ∀ m', p (Ev.forwardPos m') = true)
    (hlc : ∀ m', p (Ev.lossComputed m') = true)
    (hos : hasOptim = true → p Ev.optimStep = true)
    (htd : p Ev.traceDispatch = true)
    (hlr : ∀ n, p (Ev.logReset n) = true)
    (hev : ∀ n o, p (Ev.evalValid n o) = true)
    (hsv : ∀ q, p (Ev.save q) = true)
    (het : ∀ o op, p (Ev.evalTest o op) = true)
    (hme : ∀ m', p (Ev.modeError m') = true) :
    ∀ (k s : Nat), ((runEpochs args hasOptim fd batches k s).1.all p) = true := by
  intro k
  induction k with
  | zero => intro s; rfl
  | succ k ih =>
    intro s
    have hrb := runBatches_all args hasOptim fd p hfp hlc hos htd hlr hev hsv
      het hme batches s
    rcases hc : (runBatches args hasOptim fd batches s).2.2 with _ | _ | _
    · simp only [runEpochs, hc]
      rw [List.all_append, hrb, Bool.true_and]
      exact ih _
    · simp only [runEpochs, hc]
      rw [List.all_append, hrb, Bool.true_and]
      exact ih _
    · simp only [runEpochs, hc]
      exact hrb

theorem finalEvents_all (args : Args) (fd : Nat) (p : Ev → Bool)
    (hfa : p Ev.finishAsync = true)
    (het : ∀ o op, p (Ev.evalTest o op) = true) :
    ((finalEvents args fd).all p) = true := by
  unfold finalEvents
  split_ifs <;> simp_all [List.all_append]

theorem loopAndFinish_all (args : Args) (hasOptim : Bool) (fd : Nat)
    (batches : List String) (p : Ev → Bool)
    (hfp : ∀ m', p (Ev.forwardPos m') = true)
    (hlc : ∀ m', p (Ev.lossComputed m') = true)
    (hos : hasOptim = true → p Ev.optimStep = true)
    (htd : p Ev.traceDispatch = true)
    (hlr : ∀ n, p (Ev.logReset n) = true)
    (hev : ∀ n o, p (Ev.evalValid n o) = true)
    (hsv : ∀ q, p (Ev.save q) = true)
    (het : ∀ o op, p (Ev.evalTest o op) = true)
    (hme : ∀ m', p (Ev.modeError m') = true)
    (hfa : p Ev.finishAsync = true) :
    ((loopAndFinish args hasOptim fd batches).all p) = true := by
  unfold loopAndFinish
  rw [List.all_append,
    runEpochs_all args hasOptim fd batches p hfp hlc hos htd hlr hev hsv het hme,
    Bool.true_and]
  split
  · rfl
  · exact finalEvents_all args fd p hfa het

theorem isErrorEv_eq (e : Ev) :
    isErrorEv e = (isModeError e || isConfigError e) := by
  cases e <;> rfl

theorem runEpochs_no_configError (args : Args) (hasOptim : Bool) (fd : Nat)
    (batches : List String) (k s : Nat) :
    ((runEpochs args hasOptim fd batches k s).1.all fun e => !isConfigError e)
      = true :=
  runEpochs_all args hasOptim fd batches _ (fun _ => rfl) (fun _ => rfl)
    (fun _ => rfl) rfl (fun _ => rfl) (fun _ _ => rfl) (fun _ => rfl)
    (fun _ _ => rfl) (fun _ => rfl) k s

theorem runEpochs_countP_errorEv_zero (args : Args) (hasOptim : Bool)
    (fd : Nat) (batches : List String)
    (hmodes : ∀ m ∈ batches, validMode m = true) (k s : Nat) :
    ((runEpochs args hasOptim fd batches k s).1.countP isErrorEv) = 0 := by
  rw [List.countP_eq_zero]
  intro e he
  have hnab := runEpochs_no_abort args hasOptim fd batches hmodes k s
  have h1 := List.all_eq_true.mp
    ((runEpochs_inv args hasOptim fd batches k s).2 hnab) e he
  have h2 := List.all_eq_true.mp
    (runEpochs_no_configError args hasOptim fd batches k s) e he
  simp only [Bool.not_eq_true'] at h1 h2
  rw [isErrorEv_eq, h1, h2]
  simp

theorem batchEvents_save_iff (args : Args) (hasOptim : Bool) (fd : Nat)
    (m : String) (s : Nat) (hm : validMode m = true) :
    (Ev.save (osPathJoin args.save_path ("step_" ++ Nat.repr (s + 1))) ∈
        (batchEvents args hasOptim fd m s).1) ↔
      ((s + 1) % args.save_interval = 0 ∨ s + 1 > args.max_steps) := by
  unfold batchEvents
  simp only [hm, if_true]
  split_ifs <;> simp_all

theorem batchEvents_evalValid_iff (args : Args) (hasOptim : Bool) (fd : Nat)
    (m : String) (s : Nat) (hm : validMode m = true) (hv : args.valid = true) :
    (Ev.evalValid s (evalFilterArg args fd) ∈ (batchEvents args hasOptim fd m s).1)
      ↔ (s + 1) % args.eval_interval = 0 := by
  unfold batchEvents
  simp only [hm, if_true, hv]
  split_ifs <;> simp_all

theorem batchEvents_brk (args : Args) (hasOptim : Bool) (fd : Nat) (m : String)
    (s : Nat) (hm : validMode m = true) (hs : s + 1 > args.max_steps)
    (ht : args.test = true) :
    (batchEvents args hasOptim fd m s).2.2 = Ctrl.brk ∧
      Ev.evalTest (evalFilterArg args fd) none ∈
        (batchEvents args hasOptim fd m s).1 := by
  unfold batchEvents
  simp [hm, hs, ht]

theorem finalEvents_noModeError (args : Args) (fd : Nat) :
    noModeError (finalEvents args fd) = true := by
  unfold finalEvents
  split_ifs <;> rfl

theorem mainTrace_stops (args : Args) (numParams fd : Nat)
    (batches : List String) :
    stopsAtModeError (mainTrace args numParams fd batches) = true := by
  rcases hso : setupOptimizer args numParams with name | _ | msg
  · simp only [mainTrace, hso]
    rw [stopsAtModeError_append (by split <;> rfl)]
    unfold loopAndFinish
    cases hab : (runEpochs args true fd batches args.num_epoch 1).2.2
    · apply stopsAtModeError_of_noModeError
      rw [noModeError, List.all_append]
      have h1 := (runEpochs_inv args true fd batches args.num_epoch 1).2 hab
      rw [noModeError] at h1
      rw [h1, Bool.true_and]
      have h2 := finalEvents_noModeError args fd
      rw [noModeError] at h2
      simpa using h2
    · have h3 := (runEpochs_inv args true fd batches args.num_epoch 1).1 hab
      simpa using h3
  · simp only [mainTrace, hso]
    rw [stopsAtModeError_append (by split <;> rfl)]
    unfold loopAndFinish
    cases hab : (runEpochs args false fd batches args.num_epoch 1).2.2
    · apply stopsAtModeError_of_noModeError
      rw [noModeError, List.all_append]
      have h1 := (runEpochs_inv args false fd batches args.num_epoch 1).2 hab
      rw [noModeError] at h1
      rw [h1, Bool.true_and]
      have h2 := finalEvents_noModeError args fd
      rw [noModeError] at h2
      simpa using h2
    · have h3 := (runEpochs_inv args false fd batches args.num_epoch 1).1 hab
      simpa using h3
  · simp only [mainTrace, hso]
    apply stopsAtModeError_of_noModeError
    split <;> rfl

theorem mainTrace_struct (args : Args) (numParams fd : Nat)
    (batches : List String) (hok : setupFails args numParams = false)
    (hb : ∀ m ∈ batches, validMode m = true) :
    ∃ l, mainTrace args numParams fd batches = l ++ finalEvents args fd := by
  rcases hso : setupOptimizer args numParams with name | _ | msg
  · refine ⟨(if args.async_update then [Ev.startAsync] else [])
      ++ [Ev.createLoaders (loaderFilterArg args fd)]
      ++ (runEpochs args true fd batches args.num_epoch 1).1, ?_⟩
    simp [mainTrace, hso, loopAndFinish,
      runEpochs_no_abort args true fd batches hb args.num_epoch 1]
  · refine ⟨(if args.async_update then [Ev.startAsync] else [])
      ++ [Ev.warnNoParam, Ev.createLoaders (loaderFilterArg args fd)]
      ++ (runEpochs args false fd batches args.num_epoch 1).1, ?_⟩
    simp [mainTrace, hso, loopAndFinish,
      runEpochs_no_abort args false fd batches hb args.num_epoch 1]
  · rw [setupFails, hso] at hok
    exact absurd hok (by simp)

theorem loopAndFinish_countP_errorEv_zero (args : Args) (hasOptim : Bool)
    (fd : Nat) (batches : List String)
    (hmodes : ∀ m ∈ batches, validMode m = true) :
    (loopAndFinish args hasOptim fd batches).countP isErrorEv = 0 := by
  unfold loopAndFinish
  rw [List.countP_append,
    runEpochs_countP_errorEv_zero args hasOptim fd batches hmodes]
  split
  · rfl
  · rw [Nat.zero_add]
    apply countP_zero_of_all
    exact finalEvents_all args fd _ rfl (fun _ _ => rfl)

/-- C1: the claim says that once the step counter exceeds `max_steps` the
orchestrator processes no further batch of the training stream, regardless
of whether the test evaluation is enabled.  In the code the `break` is
guarded by `args.test`, so with the test split disabled nothing stops the
loop: with `max_steps = 1`, one epoch and three batches, the counter
exceeds `max_steps` after the first batch and yet all three batches are
processed (three loss computations are observed in the trace). -/
theorem c1_no_stop_at_max_steps_without_test :
    c1args.max_steps = 1 ∧ c1args.test = false ∧
      (mainTrace c1args 1 0 ["head", "head", "head"]).countP isLoss = 3 := by
  decide

/-- C2: a batch whose corruption mode is neither 'head' nor 'tail' makes the
training step raise `ValueError` right after the positive-score forward
pass - before the loss is computed and before any trace is dispatched - and
the failure is fatal and never retried: in every run, nothing at all is
executed after an unsupported-mode error, which can only be the last event
of the trace. -/
theorem c2_bad_mode_fatal_before_loss (args : Args) (numParams fd : Nat)
    (batches : List String) (hasOptim : Bool) (m : String) (s : Nat)
    (h1 : m ≠ "head") (h2 : m ≠ "tail") :
    batchEvents args hasOptim fd m s
        = ([Ev.forwardPos m, Ev.modeError m], s, Ctrl.abort) ∧
      stopsAtModeError (mainTrace args numParams fd batches) = true := by
  have hm : validMode m = false := by
    simp [validMode, h1, h2]
  exact ⟨batchEvents_bad args hasOptim fd m s hm,
    mainTrace_stops args numParams fd batches⟩

/-- Witness for C2: the concrete mode 'both' aborts the step, and the trace
of a run whose stream contains it stops at the error. -/
theorem c2_bad_mode_fatal_before_loss_witness :
    batchEvents baseArgs true 0 "both" 3
        = ([Ev.forwardPos "both", Ev.modeError "both"], 3, Ctrl.abort) ∧
      stopsAtModeError (mainTrace baseArgs 1 0 ["head", "both", "tail"]) = true :=
  c2_bad_mode_fatal_before_loss baseArgs 1 0 ["head", "both", "tail"] true
    "both" 3 (by decide) (by decide)

/-- C3: with at least one dense parameter and an optimizer name other than
'Adam' or 'Adagrad', `main` raises `ValueError` at startup: the whole trace
is the async-start event (if any) followed by the error, and no training
step (no loss computation) ever runs; there is no retry. -/
theorem c3_unsupported_optimizer_fatal_at_startup (args : Args)
    (numParams fd : Nat) (batches : List String) (hnp : 0 < numParams)
    (h1 : args.mlp_optimizer ≠ "Adam") (h2 : args.mlp_optimizer ≠ "Adagrad") :
    mainTrace args numParams fd batches
        = (if args.async_update then [Ev.startAsync] else [])
          ++ [Ev.configError
                ("optimizer " ++ args.mlp_optimizer ++ " not supported!")] ∧
      (mainTrace args numParams fd batches).countP isLoss = 0 := by
  have hso : setupOptimizer args numParams
      = OptimSetup.fail
          ("optimizer " ++ args.mlp_optimizer ++ " not supported!") := by
    unfold setupOptimizer
    simp [hnp, h1, h2]
  have ht : mainTrace args numParams fd batches
      = (if args.async_update then [Ev.startAsync] else [])
        ++ [Ev.configError
              ("optimizer " ++ args.mlp_optimizer ++ " not supported!")] := by
    simp only [mainTrace, hso]
  refine ⟨ht, ?_⟩
  rw [ht, List.countP_append]
  split
  · rfl
  · rfl

/-- Witness for C3 with the optimizer name 'SGD' and two dense parameters. -/
theorem c3_unsupported_optimizer_witness :
    mainTrace c3args 2 0 ["head"]
        = (if c3args.async_update then [Ev.startAsync] else [])
          ++ [Ev.configError
                ("optimizer " ++ c3args.mlp_optimizer ++ " not supported!")] ∧
      (mainTrace c3args 2 0 ["head"]).countP isLoss = 0 :=
  c3_unsupported_optimizer_fatal_at_startup c3args 2 0 ["head"] (by decide)
    (by decide) (by decide)

/-- C4: with zero dense parameters the startup warning is emitted exactly
once, the optimizer is `None`, and - the stream's corruption modes being
valid - the run has no optimizer-step event and no error event at all:
every training step completes with the optimizer phase skipped. -/
theorem c4_zero_params_warn_once_optimizer_skipped (args : Args) (fd : Nat)
    (batches : List String) (hmodes : ∀ m ∈ batches, validMode m = true) :
    setupOptimizer args 0 = OptimSetup.noOptim ∧
      (mainTrace args 0 fd batches).countP isWarn = 1 ∧
      (mainTrace args 0 fd batches).countP isOptimStep = 0 ∧
      (mainTrace args 0 fd batches).countP isErrorEv = 0 := by
  have hso : setupOptimizer args 0 = OptimSetup.noOptim := rfl
  have ht : mainTrace args 0 fd batches
      = (if args.async_update then [Ev.startAsync] else [])
        ++ [Ev.warnNoParam, Ev.createLoaders (loaderFilterArg args fd)]
        ++ loopAndFinish args false fd batches := by
    simp only [mainTrace, hso]
  refine ⟨hso, ?_, ?_, ?_⟩
  · rw [ht, List.countP_append, List.countP_append]
    have hp : (if args.async_update then [Ev.startAsync]
        else ([] : List Ev)).countP isWarn = 0 := by
      split <;> rfl
    have hl : (loopAndFinish args false fd batches).countP isWarn = 0 := by
      apply countP_zero_of_all
      exact loopAndFinish_all args false fd batches _ (fun _ => rfl)
        (fun _ => rfl) (fun _ => rfl) rfl (fun _ => rfl) (fun _ _ => rfl)
        (fun _ => rfl) (fun _ _ => rfl) (fun _ => rfl) rfl
    rw [hp, hl]
    rfl
  · rw [ht, List.countP_append, List.countP_append]
    have hp : (if args.async_update then [Ev.startAsync]
        else ([] : List Ev)).countP isOptimStep = 0 := by
      split <;> rfl
    have hl : (loopAndFinish args false fd batches).countP isOptimStep = 0 := by
      apply countP_zero_of_all
      exact loopAndFinish_all args false fd batches _ (fun _ => rfl)
        (fun _ => rfl) (fun h => Bool.noConfusion h) rfl (fun _ => rfl)
        (fun _ _ => rfl) (fun _ => rfl) (fun _ _ => rfl) (fun _ => rfl) rfl
    rw [hp, hl]
    rfl
  · rw [ht, List.countP_append, List.countP_append]
    have hp : (if args.async_update then [Ev.startAsync]
        else ([] : List Ev)).countP isErrorEv = 0 := by
      split <;> rfl
    rw [hp, loopAndFinish_countP_errorEv_zero args false fd batches hmodes]
    rfl

/-- Witness for C4 at a concrete two-batch run. -/
theorem c4_zero_params_witness :
    setupOptimizer baseArgs 0 = OptimSetup.noOptim ∧
      (mainTrace baseArgs 0 0 ["head", "tail"]).countP isWarn = 1 ∧
      (mainTrace baseArgs 0 0 ["head", "tail"]).countP isOptimStep = 0 ∧
      (mainTrace baseArgs 0 0 ["head", "tail"]).countP isErrorEv = 0 :=
  c4_zero_params_warn_once_optimizer_skipped baseArgs 0 ["head", "tail"]
    (by decide)

/-- C5 counterexample: a run with async update enabled whose optimizer name
is unsupported dies with the startup `ValueError` and never invokes
`finish_async_update`, refuting the claim's unconditional drain guarantee
(`for every training run in which asynchronous update is enabled`). -/
theorem c5_cex_exception_skips_drain :
    c5args.async_update = true ∧
      mainTrace c5args 1 0 ["head"]
        = [Ev.startAsync, Ev.configError "optimizer SGD not supported!"] ∧
      (mainTrace c5args 1 0 ["head"]).countP isFinishAsync = 0 := by
  decide

/-- C5 as amended: in every run with async update enabled that does not
abort with a `ValueError` (supported optimizer, valid corruption modes),
`finish_async_update` is invoked after the whole training loop, and the
only thing that may follow it before the process ends is the final
test-set evaluation. -/
theorem c5_finish_async_drains_before_exit (args : Args) (numParams fd : Nat)
    (batches : List String) (hasync : args.async_update = true)
    (hok : setupFails args numParams = false)
    (hmodes : ∀ m ∈ batches, validMode m = true) :
    ∃ l, mainTrace args numParams fd batches
        = l ++ Ev.finishAsync ::
            (if args.test then
              [Ev.evalTest (evalFilterArg args fd)
                (some (osPathJoin args.save_path "test.pkl"))] else []) := by
  obtain ⟨l, hl⟩ := mainTrace_struct args numParams fd batches hok hmodes
  refine ⟨l, ?_⟩
  rw [hl]
  simp [finalEvents, hasync]

/-- Witness for the amended C5. -/
theorem c5_finish_async_witness :
    ∃ l, mainTrace c5wargs 1 0 ["head"]
        = l ++ Ev.finishAsync ::
            (if c5wargs.test then
              [Ev.evalTest (evalFilterArg c5wargs 0)
                (some (osPathJoin c5wargs.save_path "test.pkl"))] else []) :=
  c5_finish_async_drains_before_exit c5wargs 1 0 ["head"] (by decide)
    (by decide) (by decide)

/-- C6 counterexample: with `save_interval = 10` and `max_steps = 2`, the
run saves a checkpoint at step 3, which is not a multiple of
`save_interval`, refuting `saved exactly at every step whose counter is a
multiple of save_interval`. -/
theorem c6_cex_save_at_non_multiple :
    Ev.save "out/step_3" ∈ mainTrace c6args 1 0 ["head", "head", "head", "head"] ∧
      c6args.save_interval = 10 ∧ 3 % c6args.save_interval ≠ 0 := by
  decide

/-- C6 as amended: a completed training step with counter `n = s + 1` saves
a checkpoint to the directory `step_<n>` under the save path exactly when
`n` is a multiple of `save_interval` or `n` exceeds `max_steps`. -/
theorem c6_save_at_interval_or_past_max (args : Args) (hasOptim : Bool)
    (fd : Nat) (m : String) (s : Nat) (hm : validMode m = true) :
    (Ev.save (osPathJoin args.save_path ("step_" ++ Nat.repr (s + 1))) ∈
        (batchEvents args hasOptim fd m s).1) ↔
      ((s + 1) % args.save_interval = 0 ∨ s + 1 > args.max_steps) :=
  batchEvents_save_iff args hasOptim fd m s hm

/-- Witness for the amended C6 at step counter 3 of the counterexample
configuration. -/
theorem c6_save_condition_witness :
    (Ev.save (osPathJoin c6args.save_path ("step_" ++ Nat.repr (2 + 1))) ∈
        (batchEvents c6args true 0 "head" 2).1) ↔
      ((2 + 1) % c6args.save_interval = 0 ∨ 2 + 1 > c6args.max_steps) :=
  c6_save_at_interval_or_past_max c6args true 0 "head" 2 (by decide)

/-- C7 counterexample: in a run with validation enabled where the filter
dictionary is built (because of `filter_sample`) but `filter_eval` is off,
the dictionary is passed to the dataloaders yet the validation `evaluate`
call receives `None` - not the filter dictionary - refuting `the filter
dictionary built once from the triple source is passed to the evaluation
call`. -/
theorem c7_cex_eval_gets_none_despite_dict :
    c7args.valid = true ∧
      Ev.createLoaders (some 5) ∈ mainTrace c7args 1 5 ["head"] ∧
      Ev.evalValid 1 none ∈ mainTrace c7args 1 5 ["head"] := by
  decide

/-- C7 as amended: with validation enabled, a training step runs the
validation evaluation exactly when `step + 1` is a multiple of
`eval_interval`, and the filter argument of that call is the filter
dictionary exactly when `filter_eval` is set, in which case it is the same
dictionary that was passed to the dataloaders. -/
theorem c7_eval_cadence_and_filter_arg (args : Args) (hasOptim : Bool)
    (fd : Nat) (m : String) (s : Nat) (hm : validMode m = true)
    (hv : args.valid = true) :
    ((Ev.evalValid s (evalFilterArg args fd) ∈
        (batchEvents args hasOptim fd m s).1) ↔
      (s + 1) % args.eval_interval = 0) ∧
      (args.filter_eval = true →
        evalFilterArg args fd = some fd ∧ loaderFilterArg args fd = some fd) := by
  refine ⟨batchEvents_evalValid_iff args hasOptim fd m s hm hv, fun hf => ?_⟩
  constructor
  · simp [evalFilterArg, filterDict, useFilterSet, hf]
  · simp [loaderFilterArg, filterDict, useFilterSet, hf]

/-- Witness for the amended C7 with `filter_eval` enabled. -/
theorem c7_eval_cadence_witness :
    ((Ev.evalValid 1 (evalFilterArg c7wargs 5) ∈
        (batchEvents c7wargs true 5 "head" 1).1) ↔
      (1 + 1) % c7wargs.eval_interval = 0) ∧
      (c7wargs.filter_eval = true →
        evalFilterArg c7wargs 5 = some 5 ∧ loaderFilterArg c7wargs 5 = some 5) :=
  c7_eval_cadence_and_filter_arg c7wargs true 5 "head" 1 (by decide) (by decide)

/-- C8: once the step counter `s + 1` of a completed step exceeds
`max_steps`, that step saves a checkpoint (to `step_<s+1>` under the save
path) regardless of `save_interval`, because the save condition is
`step mod save_interval == 0 or step > max_steps`. -/
theorem c8_save_every_step_past_max_steps (args : Args) (hasOptim : Bool)
    (fd : Nat) (m : String) (s : Nat) (hm : validMode m = true)
    (hs : s + 1 > args.max_steps) :
    Ev.save (osPathJoin args.save_path ("step_" ++ Nat.repr (s + 1))) ∈
      (batchEvents args hasOptim fd m s).1 :=
  (batchEvents_save_iff args hasOptim fd m s hm).mpr (Or.inr hs)

/-- Witness for C8: step 3 exceeds `max_steps = 2` and is saved although
`save_interval = 10`. -/
theorem c8_save_past_max_witness :
    Ev.save (osPathJoin c6args.save_path ("step_" ++ Nat.repr (2 + 1))) ∈
      (batchEvents c6args true 0 "head" 2).1 :=
  c8_save_every_step_past_max_steps c6args true 0 "head" 2 (by decide)
    (by decide)

/-- C9 counterexample: with the test split enabled, two epochs and
`max_steps = 1`, the test evaluation runs three times - twice in-loop with
no output path (the `break` only leaves the current epoch's inner loop, so
the second epoch triggers it again) and once after the loop - refuting
`executes twice`. -/
theorem c9_cex_test_eval_three_times :
    (mainTrace c9args 1 0 ["head", "head", "head"]).countP isTestEval = 3 ∧
      (mainTrace c9args 1 0 ["head", "head", "head"]).countP isInLoopTestEval = 2 ∧
      (mainTrace c9args 1 0 ["head", "head", "head"]).countP isFinalTestEval = 1 := by
  decide

/-- C9 as amended: when the step counter exceeds `max_steps` with the test
split enabled, the step runs an in-loop test evaluation with no output path
and only breaks the current epoch's batch loop (so each remaining epoch
that processes a batch repeats it); a run that does not abort additionally
ends with exactly one final test evaluation whose output path is
`save_path/test.pkl`. -/
theorem c9_in_loop_and_final_test_eval (args : Args) (numParams fd : Nat)
    (batches : List String) (hasOptim : Bool) (m : String) (s : Nat)
    (hm : validMode m = true) (hs : s + 1 > args.max_steps)
    (ht : args.test = true) (hok : setupFails args numParams = false)
    (hmodes : ∀ m' ∈ batches, validMode m' = true) :
    ((batchEvents args hasOptim fd m s).2.2 = Ctrl.brk ∧
        Ev.evalTest (evalFilterArg args fd) none ∈
          (batchEvents args hasOptim fd m s).1) ∧
      ∃ l, mainTrace args numParams fd batches
          = l ++ [Ev.evalTest (evalFilterArg args fd)
              (some (osPathJoin args.save_path "test.pkl"))] := by
  refine ⟨batchEvents_brk args hasOptim fd m s hm hs ht, ?_⟩
  obtain ⟨l, hl⟩ := mainTrace_struct args numParams fd batches hok hmodes
  refine ⟨l ++ (if args.async_update then [Ev.finishAsync] else []), ?_⟩
  rw [hl]
  simp [finalEvents, ht, List.append_assoc]

/-- Witness for the amended C9. -/
theorem c9_test_eval_witness :
    ((batchEvents c9args true 0 "head" 1).2.2 = Ctrl.brk ∧
        Ev.evalTest (evalFilterArg c9args 0) none ∈
          (batchEvents c9args true 0 "head" 1).1) ∧
      ∃ l, mainTrace c9args 1 0 ["head"]
          = l ++ [Ev.evalTest (evalFilterArg c9args 0)
              (some (osPathJoin c9args.save_path "test.pkl"))] :=
  c9_in_loop_and_final_test_eval c9args 1 0 ["head"] true "head" 1 (by decide)
    (by decide) (by decide) (by decide) (by decide)

/-- C10: in every run that survives optimizer setup, `create_dataloaders`
receives the filter dictionary exactly when at least one of
`filter_sample`, `filter_eval`, `sample_weight` is set; `sample_weight`
alone suffices, and with all three unset the dataloaders receive `None`. -/
theorem c10_filter_dict_iff_flags (args : Args) (numParams fd : Nat)
    (batches : List String) (hok : setupFails args numParams = false) :
    Ev.createLoaders (loaderFilterArg args fd) ∈
        mainTrace args numParams fd batches ∧
      (loaderFilterArg args fd = some fd ↔
        (args.filter_sample || args.filter_eval || args.sample_weight) = true) ∧
      (args.filter_sample = false → args.filter_eval = false →
        args.sample_weight = true → loaderFilterArg args fd = some fd) ∧
      ((args.filter_sample || args.filter_eval || args.sample_weight) = false →
        loaderFilterArg args fd = none) := by
  refine ⟨?_, ?_, ?_, ?_⟩
  · rcases hso : setupOptimizer args numParams with name | _ | msg
    · simp [mainTrace, hso]
    · simp [mainTrace, hso]
    · rw [setupFails, hso] at hok
      exact absurd hok (by simp)
  · by_cases hu : (args.filter_sample || args.filter_eval || args.sample_weight) = true
    · simp [loaderFilterArg, filterDict, useFilterSet, hu]
    · rw [Bool.not_eq_true] at hu
      simp [loaderFilterArg, filterDict, useFilterSet, hu]
  · intro hf1 hf2 hf3
    simp [loaderFilterArg, filterDict, useFilterSet, hf1, hf2, hf3]
  · intro hu
    simp [loaderFilterArg, filterDict, useFilterSet, hu]

/-- Witness for C10 with only `sample_weight` set. -/
theorem c10_filter_dict_witness :
    Ev.createLoaders (loaderFilterArg c10args 7) ∈ mainTrace c10args 1 7 ["head"] ∧
      (loaderFilterArg c10args 7 = some 7 ↔
        (c10args.filter_sample || c10args.filter_eval || c10args.sample_weight) = true) ∧
      (c10args.filter_sample = false → c10args.filter_eval = false →
        c10args.sample_weight = true → loaderFilterArg c10args 7 = some 7) ∧
      ((c10args.filter_sample || c10args.filter_eval || c10args.sample_weight) = false →
        loaderFilterArg c10args 7 = none) :=
  c10_filter_dict_iff_flags c10args 1 7 ["head"] (by decide)

end Graph4KG
